import Mathlib

/-!
Shallow embedding of the SARA backend (src/backend/server.js, with the
/esusu/create variant of src/unnamed/part_000) and proofs about its
account, transaction, and esusu rotating-savings operations.

The PostgreSQL tables become lists of records; `SELECT ... WHERE` with a
single expected row becomes `List.find?`, `UPDATE ... WHERE username=$2`
becomes a map over the user list, and `INSERT` appends at the end
(SERIAL order).  Balances and amounts are `Int` (SQL INTEGER / JS
numbers).  bcrypt hashing, the HTTP layer, regex intent parsing and the
Gemini calls are out of scope; handlers take their already-parsed
arguments.
-/

namespace Sara

/-- A row of the `users` table.  The `password` field stores the value the
handler inserted (hashing abstracted); `balance INTEGER DEFAULT 10000`. -/
structure User where
  username : String
  password : String
  balance : Int
  deriving Repr, DecidableEq

/-- A row of the `transactions` table. -/
structure TransactionRecord where
  username : String
  kind : String
  amount : Int
  toUser : String
  deriving Repr, DecidableEq

/-- A row of the `esusu_groups` table (`status TEXT DEFAULT 'active'`). -/
structure Group where
  id : Nat
  groupName : String
  amountPerPerson : Int
  frequency : String
  totalMembers : Int
  createdBy : String
  status : String
  deriving Repr, DecidableEq

/-- A row of the `esusu_members` table; `has_collected INTEGER DEFAULT 0`
is modelled as a `Bool`. -/
structure Member where
  groupId : Nat
  username : String
  position : Nat
  hasCollected : Bool
  deriving Repr, DecidableEq

/-- A row of the `esusu_contributions` table. -/
structure Contribution where
  groupId : Nat
  username : String
  amount : Int
  cycleNumber : Nat
  deriving Repr, DecidableEq

/-- The whole database.  `nextGroupId` models the SERIAL sequence of
`esusu_groups.id`. -/
structure DB where
  users : List User
  transactions : List TransactionRecord
  groups : List Group
  members : List Member
  contributions : List Contribution
  nextGroupId : Nat
  deriving Repr, DecidableEq

/-- `SELECT * FROM users WHERE username=$1`, first row. -/
def findUser (db : DB) (username : String) : Option User :=
  db.users.find? (fun u => u.username == username)

/-- `SELECT * FROM esusu_groups WHERE group_name=$1`, first row. -/
def findGroup (db : DB) (groupName : String) : Option Group :=
  db.groups.find? (fun g => g.groupName == groupName)

/-- `SELECT * FROM esusu_members WHERE group_id=$1 AND username=$2`, first row. -/
def findMember (db : DB) (groupId : Nat) (username : String) : Option Member :=
  db.members.find? (fun m => m.groupId == groupId && m.username == username)

/-- `SELECT * FROM esusu_members WHERE group_id=$1` (all rows, table order). -/
def groupMembers (db : DB) (groupId : Nat) : List Member :=
  db.members.filter (fun m => m.groupId == groupId)

/-- `UPDATE users SET balance=$1 WHERE username=$2`. -/
def updateBalance (users : List User) (username : String) (newBal : Int) : List User :=
  users.map (fun u => if u.username == username then { u with balance := newBal } else u)

/-- Outcome of `POST /signup`. -/
inductive SignupResult where
  | missingFields
  | duplicateUsername
  | ok (db : DB)
  deriving Repr, DecidableEq

/-- `POST /signup`: rejects missing fields, relies on the UNIQUE constraint
on `username` (the catch branch) for duplicates, and inserts the user with
the column default `balance = 10000` (the INSERT names only username and
password). -/
def signup (db : DB) (username password : String) : SignupResult :=
  if username == "" || password == "" then .missingFields
  else if db.users.any (fun u => u.username == username) then .duplicateUsername
  else .ok { db with users := db.users ++ [⟨username, password, 10000⟩] }

/-- Outcome of the airtime branch of `POST /action`. -/
inductive AirtimeResult where
  | userNotFound
  | invalidAmount
  | insufficientFunds
  | ok (newBalance : Int) (db : DB)
  deriving Repr, DecidableEq

/-- The airtime branch of `POST /action`: `!amount || amount <= 0` rejects,
then the balance check, then the debit and the transaction insert. -/
def buyAirtime (db : DB) (username : String) (amount : Int) : AirtimeResult :=
  match findUser db username with
  | none => .userNotFound
  | some user =>
    if amount ≤ 0 then .invalidAmount
    else if user.balance < amount then .insufficientFunds
    else
      let newBal := user.balance - amount
      .ok newBal { db with
        users := updateBalance db.users username newBal,
        transactions := db.transactions ++ [⟨username, "Airtime", amount, "Self"⟩] }

/-- Outcome of the transfer branch of `POST /action`. -/
inductive TransferResult where
  | userNotFound
  | missingRecipient
  | invalidAmount
  | insufficientFunds
  | recipientNotFound
  | ok (newSenderBalance : Int) (db : DB)
  deriving Repr, DecidableEq

/-- The transfer branch of `POST /action` (regex parsing of the amount and
recipient abstracted into the arguments): both the sender row and the
recipient row are read before either UPDATE runs, then the sender row is
set to `balance - amount` and the recipient row to `recBalance + amount`,
in that order, followed by the two transaction inserts. -/
def transfer (db : DB) (username recipient : String) (amount : Int) : TransferResult :=
  match findUser db username with
  | none => .userNotFound
  | some user =>
    if recipient == "" then .missingRecipient
    else if amount ≤ 0 then .invalidAmount
    else if user.balance < amount then .insufficientFunds
    else
      match findUser db recipient with
      | none => .recipientNotFound
      | some recUser =>
        let newSenderBal := user.balance - amount
        let newRecipientBal := recUser.balance + amount
        let users1 := updateBalance db.users username newSenderBal
        let users2 := updateBalance users1 recipient newRecipientBal
        .ok newSenderBal { db with
          users := users2,
          transactions := db.transactions ++
            [⟨username, "Transfer", amount, recipient⟩,
             ⟨recipient, "Received", amount, username⟩] }

/-- Outcome of `POST /pay-bill`. -/
inductive PayBillResult where
  | userNotFound
  | insufficientFunds
  | ok (newBalance : Int) (db : DB)
  deriving Repr, DecidableEq

/-- `POST /pay-bill`: the amount comes from the scanned `billData`; only the
balance check guards it before the debit and the transaction insert. -/
def payBill (db : DB) (username : String) (amount : Int) (counterparty : String) :
    PayBillResult :=
  match findUser db username with
  | none => .userNotFound
  | some user =>
    if user.balance < amount then .insufficientFunds
    else
      let newBalance := user.balance - amount
      .ok newBalance { db with
        users := updateBalance db.users username newBalance,
        transactions := db.transactions ++ [⟨username, "Bill Payment", amount, counterparty⟩] }

/-- Outcome of `POST /esusu/create`. -/
inductive CreateResult where
  | missingFields
  | invalidRange
  | duplicateName
  | ok (groupId : Nat) (db : DB)
  deriving Repr, DecidableEq

/-- `POST /esusu/create`, the src/unnamed/part_000 variant (the
src/backend/server.js variant is identical except that it lacks the 3..12
range check): JS falsiness rejects empty strings and zero numbers as
missing fields, then `totalMembers < 3 || totalMembers > 12` rejects, the
UNIQUE constraint on `group_name` rejects duplicates (catch branch), and on
success the group row and the founder membership at position 1 are
inserted and the new group id returned. -/
def createGroup (db : DB) (username groupName : String) (amountPerPerson : Int)
    (frequency : String) (totalMembers : Int) : CreateResult :=
  if username == "" || groupName == "" || amountPerPerson == 0 ||
      frequency == "" || totalMembers == 0 then .missingFields
  else if totalMembers < 3 || totalMembers > 12 then .invalidRange
  else if db.groups.any (fun g => g.groupName == groupName) then .duplicateName
  else
    let gid := db.nextGroupId
    .ok gid { db with
      groups := db.groups ++
        [⟨gid, groupName, amountPerPerson, frequency, totalMembers, username, "active"⟩],
      members := db.members ++ [⟨gid, username, 1, false⟩],
      nextGroupId := gid + 1 }

/-- Outcome of `POST /esusu/join`. -/
inductive JoinResult where
  | notFound
  | alreadyMember
  | groupFull
  | ok (posn : Nat) (db : DB)
  deriving Repr, DecidableEq

/-- `POST /esusu/join` (src/backend/server.js): group lookup by name,
already-member check, capacity check against `total_members`, then the
membership insert at `position = memberCount + 1`.  The group's `status`
column is never read. -/
def joinGroup (db : DB) (username groupName : String) : JoinResult :=
  match findGroup db groupName with
  | none => .notFound
  | some g =>
    if (findMember db g.id username).isSome then .alreadyMember
    else if ((groupMembers db g.id).length : Int) ≥ g.totalMembers then .groupFull
    else
      let posn := (groupMembers db g.id).length + 1
      .ok posn { db with members := db.members ++ [⟨g.id, username, posn, false⟩] }

/-- Outcome of `POST /esusu/contribute`; `storageError` is the catch branch
(HTTP 500 "Contribution failed") reached when a query throws, carrying the
database as left by the queries that had already run. -/
inductive ContributeResult where
  | notFound
  | notMember
  | insufficientFunds
  | storageError (db : DB)
  | ok (newBalance : Int) (db : DB)
  deriving Repr, DecidableEq

/-- `POST /esusu/contribute` with injected storage failures: after the
user/group/member lookups and the balance check, the handler runs three
queries in order — the balance UPDATE, the contribution INSERT (always with
`cycle_number = 1`), and the transaction INSERT.  `failContribution` /
`failTransaction` make the corresponding INSERT throw; the catch branch
keeps every earlier write (no rollback, no compensation).  No check against
existing contributions is made, and the group's `status` is never read. -/
def contributeWithFaults (db : DB) (username groupName : String)
    (failContribution failTransaction : Bool) : ContributeResult :=
  match findUser db username, findGroup db groupName with
  | some user, some g =>
    match findMember db g.id username with
    | none => .notMember
    | some _ =>
      if user.balance < g.amountPerPerson then .insufficientFunds
      else
        let newBalance := user.balance - g.amountPerPerson
        let db1 := { db with users := updateBalance db.users username newBalance }
        if failContribution then .storageError db1
        else
          let db2 := { db1 with contributions :=
            db1.contributions ++ [⟨g.id, username, g.amountPerPerson, 1⟩] }
          if failTransaction then .storageError db2
          else
            .ok newBalance { db2 with transactions :=
              db2.transactions ++ [⟨username, "Esusu Contribution", g.amountPerPerson, groupName⟩] }
  | _, _ => .notFound

/-- `POST /esusu/contribute` when every query succeeds. -/
def contribute (db : DB) (username groupName : String) : ContributeResult :=
  contributeWithFaults db username groupName false false

/-- Number of contribution rows for a given (group, account, cycle). -/
def countContribs (db : DB) (groupId : Nat) (username : String) (cyc : Nat) : Nat :=
  (db.contributions.filter
    (fun c => c.groupId == groupId && c.username == username && c.cycleNumber == cyc)).length

/-- Modelled from the spec: `cycleStatus(groupId, cycleNumber).pending` —
the members of the group who have no Contribution for that cycle (no such
query exists in the repository's code). -/
def cycleStatusPending (db : DB) (groupId : Nat) (cyc : Nat) : List String :=
  ((groupMembers db groupId).map (fun m => m.username)).filter
    (fun u => !(db.contributions.any
      (fun c => c.groupId == groupId && c.username == u && c.cycleNumber == cyc)))

/-- Modelled from the spec: the member at the lowest `position` among those
with `hasCollected = false`, the next eligible collector. -/
def lowestUncollected (db : DB) (groupId : Nat) : Option Member :=
  ((groupMembers db groupId).filter (fun m => !m.hasCollected)).foldl
    (fun acc m =>
      match acc with
      | none => some m
      | some b => if m.position < b.position then some m else some b) none

/-- Outcome of the spec's `markCollected`. -/
inductive CollectResult where
  | notFound
  | alreadyCollected
  | notEligible
  | ok (db : DB)
  deriving Repr, DecidableEq

/-- Modelled from the spec: no collect endpoint exists anywhere in the
repository's code — the `esusu_members` table declares `has_collected` and
`/esusu/status` reads it back, but nothing ever writes it.  Following
§4.4: fails with AlreadyCollected when the member's flag is already set;
fails with NotEligible unless the cycle's pending set is empty and the
account is the lowest-position member with `hasCollected = false`; on
success flips the flag, credits the account with
`amountPerPerson * totalMembers`, and appends the TransactionRecord. -/
def markCollected (db : DB) (username groupName : String) (cyc : Nat) : CollectResult :=
  match findGroup db groupName with
  | none => .notFound
  | some g =>
    match findMember db g.id username with
    | none => .notFound
    | some m =>
      if m.hasCollected then .alreadyCollected
      else if cycleStatusPending db g.id cyc = [] ∧
          (lowestUncollected db g.id).map (fun b => b.username) = some username then
        let payout := g.amountPerPerson * g.totalMembers
        .ok { db with
          members := db.members.map (fun mm =>
            if mm.groupId == g.id && mm.username == username then
              { mm with hasCollected := true } else mm),
          users := db.users.map (fun u =>
            if u.username == username then { u with balance := u.balance + payout } else u),
          transactions := db.transactions ++ [⟨username, "Esusu Collection", payout, groupName⟩] }
      else .notEligible

/-- All stored balances are non-negative. -/
def allBalancesNonneg (db : DB) : Prop := ∀ u ∈ db.users, 0 ≤ u.balance

/-- A balance-changing request, with its already-parsed arguments. -/
inductive Op where
  | airtimeOp (username : String) (amount : Int)
  | transferOp (username recipient : String) (amount : Int)
  | payBillOp (username : String) (amount : Int) (counterparty : String)
  | contributeOp (username groupName : String)
  deriving Repr, DecidableEq

/-- Run one request; `none` when the handler rejected it (rejections write
nothing, as in the source). -/
def runOp (db : DB) (op : Op) : Option DB :=
  match op with
  | .airtimeOp u a => match buyAirtime db u a with | .ok _ d => some d | _ => none
  | .transferOp u r a => match transfer db u r a with | .ok _ d => some d | _ => none
  | .payBillOp u a c => match payBill db u a c with | .ok _ d => some d | _ => none
  | .contributeOp u gn => match contribute db u gn with | .ok _ d => some d | _ => none

/-- Run a sequence of requests; a rejected request leaves the database as
it was. -/
def runOps (db : DB) (ops : List Op) : DB :=
  ops.foldl (fun d op => (runOp d op).getD d) db

/-- Run one join request, keeping the database unchanged when it fails. -/
def applyJoin (db : DB) (j : String × String) : DB :=
  match joinGroup db j.1 j.2 with
  | .ok _ d => d
  | _ => db

/-- Run a sequence of join requests. -/
def runJoins (db : DB) (joins : List (String × String)) : DB :=
  joins.foldl applyJoin db

/-- The positions of a group's members, in table order, are exactly
1, 2, ..., memberCount. -/
def positionsContiguous (db : DB) (groupId : Nat) : Prop :=
  (groupMembers db groupId).map (fun m => m.position) =
    List.range' 1 (groupMembers db groupId).length

/-- Membership shape of one group: contiguous positions, the founder first
at position 1, and the member count within the capacity `tm`. -/
def memberInvariant (db : DB) (groupId : Nat) (founder : String) (tm : Int) : Prop :=
  positionsContiguous db groupId ∧
  (groupMembers db groupId).head? = some ⟨groupId, founder, 1, false⟩ ∧
  ((groupMembers db groupId).length : Int) ≤ tm

/-- Every stored group id and member group id is below the SERIAL cursor,
so a freshly created group gets an unused id. -/
def freshIds (db : DB) : Prop :=
  (∀ g ∈ db.groups, g.id < db.nextGroupId) ∧
  (∀ m ∈ db.members, m.groupId < db.nextGroupId)

/-- Extract the database carried by a contribute outcome. -/
def dbAfterContribute (r : ContributeResult) (fallback : DB) : DB :=
  match r with
  | .ok _ d => d
  | .storageError d => d
  | _ => fallback

/-- Extract the database carried by a create outcome. -/
def dbAfterCreate (r : CreateResult) (fallback : DB) : DB :=
  match r with
  | .ok _ d => d
  | _ => fallback

/-- An empty database; the SERIAL sequence starts at 1. -/
def dbEmpty : DB := ⟨[], [], [], [], [], 1⟩

/-- Two users and an active three-member group whose founder alice is its
only member so far. -/
def dbC1 : DB :=
  { users := [⟨"alice", "pw", 10000⟩, ⟨"bob", "pw", 10000⟩],
    transactions := [],
    groups := [⟨1, "circle", 1000, "weekly", 3, "alice", "active"⟩],
    members := [⟨1, "alice", 1, false⟩],
    contributions := [],
    nextGroupId := 2 }

/-- `dbC1` after alice contributes once. -/
def dbC1a : DB := dbAfterContribute (contribute dbC1 "alice" "circle") dbC1

/-- `dbC1a` after alice contributes a second time. -/
def dbC1b : DB := dbAfterContribute (contribute dbC1a "alice" "circle") dbC1a

/-- `dbC1` after a contribute whose contribution INSERT threw. -/
def dbC2f : DB :=
  dbAfterContribute (contributeWithFaults dbC1 "alice" "circle" true false) dbC1

/-- `dbC1` with the group's status set to closed. -/
def dbClosed : DB :=
  { dbC1 with groups := [⟨1, "circle", 1000, "weekly", 3, "alice", "closed"⟩] }

/-- The database created by `createGroup` on `dbEmpty`. -/
def dbG : DB := dbAfterCreate (createGroup dbEmpty "alice" "circle" 1000 "weekly" 3) dbEmpty

/-- A full three-member group in which everyone has contributed cycle 1
and nobody has collected yet. -/
def dbReady : DB :=
  { users := [⟨"alice", "pw", 9000⟩, ⟨"bob", "pw", 9000⟩, ⟨"carol", "pw", 9000⟩],
    transactions := [],
    groups := [⟨1, "circle", 1000, "weekly", 3, "alice", "active"⟩],
    members := [⟨1, "alice", 1, false⟩, ⟨1, "bob", 2, false⟩, ⟨1, "carol", 3, false⟩],
    contributions := [⟨1, "alice", 1000, 1⟩, ⟨1, "bob", 1000, 1⟩, ⟨1, "carol", 1000, 1⟩],
    nextGroupId := 2 }

/-- `dbC1` after alice transfers 500 to herself. -/
def dbSelf : DB :=
  { dbC1 with
    users := updateBalance (updateBalance dbC1.users "alice" 9500) "alice" 10500,
    transactions :=
      [⟨"alice", "Transfer", 500, "alice"⟩, ⟨"alice", "Received", 500, "alice"⟩] }

/-! ## Helper lemmas -/

theorem findUser_updateBalance (users : List User) (n : String) (v : Int) :
    List.find? (fun u => u.username == n) (updateBalance users n v) =
      (List.find? (fun u => u.username == n) users).map
        (fun u => { u with balance := v }) := by
  induction users with
  | nil => rfl
  | cons a l ih =>
    have hx : updateBalance (a :: l) n v =
        (if a.username == n then { a with balance := v } else a) :: updateBalance l n v := rfl
    rw [hx]
    by_cases h : a.username = n
    · have h1 : List.find? (fun u => u.username == n)
          (({ a with balance := v } : User) :: updateBalance l n v) =
            some { a with balance := v } :=
        List.find?_cons_of_pos _ (by simp [h])
      have h2 : List.find? (fun u => u.username == n) (a :: l) = some a :=
        List.find?_cons_of_pos _ (by simp [h])
      rw [if_pos (by simp [h] : (a.username == n) = true), h1, h2]
      rfl
    · have h1 : List.find? (fun u => u.username == n)
          (a :: updateBalance l n v) = List.find? (fun u => u.username == n)
            (updateBalance l n v) :=
        List.find?_cons_of_neg _ (by simp [h])
      have h2 : List.find? (fun u => u.username == n) (a :: l) =
          List.find? (fun u => u.username == n) l :=
        List.find?_cons_of_neg _ (by simp [h])
      rw [if_neg (by simp [h]), h1, h2]
      exact ih

theorem updateBalance_nonneg {users : List User} {n : String} {v : Int}
    (h : ∀ u ∈ users, 0 ≤ u.balance) (hv : 0 ≤ v) :
    ∀ u ∈ updateBalance users n v, 0 ≤ u.balance := by
  intro u hu
  simp only [updateBalance, List.mem_map] at hu
  obtain ⟨w, hw, rfl⟩ := hu
  by_cases hc : (w.username == n) = true
  · simp only [if_pos hc]
    exact hv
  · simp only [if_neg hc]
    exact h w hw

/-! ## Claim theorems -/

/-- C10: every account created through signup starts with a balance of
exactly 10000 — the INSERT names only username and password, so the
column default applies; no other initial balance is possible. -/
theorem signup_initial_balance (db : DB) (username password : String) (db' : DB)
    (h : signup db username password = .ok db') :
    ∀ u ∈ db'.users, u ∉ db.users → u.balance = 10000 := by
  unfold signup at h
  split at h
  · exact absurd h (by simp)
  · split at h
    · exact absurd h (by simp)
    · injection h with h
      subst h
      intro u hu hnot
      simp only [List.mem_append, List.mem_singleton] at hu
      rcases hu with hu | hu
      · exact absurd hu hnot
      · subst hu; rfl

/-- Witness for C10 at a concrete signup. -/
theorem signup_initial_balance_witness :
    (⟨"dan", "pw", 10000⟩ : User).balance = 10000 :=
  signup_initial_balance dbEmpty "dan" "pw"
    ⟨[⟨"dan", "pw", 10000⟩], [], [], [], [], 1⟩ rfl
    ⟨"dan", "pw", 10000⟩ (by decide) (by decide)

/-- C9: when the parsed recipient equals the sender, a successful transfer
stores `original + amount` — the recipient-credit UPDATE lands on the same
row after the sender-debit UPDATE and overwrites it. -/
theorem selfTransfer_balance (db : DB) (username : String) (amount : Int)
    (user : User) (hu : findUser db username = some user)
    (b : Int) (db' : DB) (h : transfer db username username amount = .ok b db') :
    findUser db' username = some { user with balance := user.balance + amount } := by
  unfold transfer at h
  simp only [hu] at h
  split at h
  · exact absurd h (by simp)
  split at h
  · exact absurd h (by simp)
  split at h
  · exact absurd h (by simp)
  injection h with h1 h2
  subst h2
  unfold findUser at hu ⊢
  simp only [findUser_updateBalance, hu]
  rfl

/-- Witness for C9: alice sends 500 to herself and ends at 10500. -/
theorem selfTransfer_balance_witness :
    findUser dbSelf "alice" = some ⟨"alice", "pw", 10500⟩ :=
  selfTransfer_balance dbC1 "alice" 500 ⟨"alice", "pw", 10000⟩ rfl 9500 dbSelf rfl

/-- C8: with user, group, and membership found, contribute fails with
InsufficientFunds exactly when the balance read from the users table is
below `amountPerPerson`; on success it debits exactly `amountPerPerson`
and the Contribution row records that same amount. -/
theorem contribute_funds_check (db : DB) (u gn : String) (user : User) (g : Group)
    (hu : findUser db u = some user) (hg : findGroup db gn = some g)
    (hm : (findMember db g.id u).isSome) :
    (contribute db u gn = .insufficientFunds ↔ user.balance < g.amountPerPerson) ∧
    (∀ b db', contribute db u gn = .ok b db' →
      b = user.balance - g.amountPerPerson ∧
      findUser db' u = some { user with balance := user.balance - g.amountPerPerson } ∧
      db'.contributions = db.contributions ++ [⟨g.id, u, g.amountPerPerson, 1⟩]) := by
  obtain ⟨m, hm'⟩ := Option.isSome_iff_exists.mp hm
  unfold contribute contributeWithFaults
  simp only [hu, hg, hm']
  by_cases hb : user.balance < g.amountPerPerson
  · simp only [if_pos hb]
    refine ⟨⟨fun _ => hb, fun _ => by trivial⟩, ?_⟩
    intro b db' h
    exact absurd h (by simp)
  · simp only [if_neg hb]
    refine ⟨⟨fun h => absurd h (by simp), fun h => absurd h hb⟩, ?_⟩
    intro b db' h
    injection h with h1 h2
    subst h2
    refine ⟨h1.symm, ?_, rfl⟩
    unfold findUser at hu ⊢
    simp only [findUser_updateBalance, hu]
    rfl

/-- Witness for C8 at `dbC1`. -/
theorem contribute_funds_check_witness :
    (contribute dbC1 "alice" "circle" = .insufficientFunds ↔ (10000 : Int) < 1000) :=
  (contribute_funds_check dbC1 "alice" "circle" ⟨"alice", "pw", 10000⟩
    ⟨1, "circle", 1000, "weekly", 3, "alice", "active"⟩ rfl rfl (by decide)).1

/-- C1 counterexample: alice contributes twice to the same group; both
calls succeed (no DuplicateContribution rejection exists) and afterwards
two Contribution rows for (groupId 1, alice, cycle 1) exist. -/
theorem duplicate_contribution_counterexample :
    contribute dbC1 "alice" "circle" = .ok 9000 dbC1a ∧
    contribute dbC1a "alice" "circle" = .ok 8000 dbC1b ∧
    countContribs dbC1b 1 "alice" 1 = 2 :=
  ⟨rfl, rfl, rfl⟩

/-- C1 amended: contribute makes no duplicate check — whenever the user
exists, is a member, and has a sufficient balance, it succeeds and appends
a Contribution with cycleNumber fixed at 1 regardless of existing rows, so
the count for (groupId, accountId, 1) grows with every call. -/
theorem contribute_no_duplicate_check (db : DB) (u gn : String) (user : User) (g : Group)
    (hu : findUser db u = some user) (hg : findGroup db gn = some g)
    (hm : (findMember db g.id u).isSome)
    (hb : ¬ user.balance < g.amountPerPerson) :
    ∃ db', contribute db u gn = .ok (user.balance - g.amountPerPerson) db' ∧
      countContribs db' g.id u 1 = countContribs db g.id u 1 + 1 := by
  obtain ⟨m, hm'⟩ := Option.isSome_iff_exists.mp hm
  unfold contribute contributeWithFaults
  simp only [hu, hg, hm', if_neg hb]
  refine ⟨_, rfl, ?_⟩
  simp [countContribs, List.filter_append]

/-- Witness for the C1 amended theorem, applied where a contribution for
(1, alice, 1) already exists. -/
theorem contribute_no_duplicate_check_witness :
    ∃ db', contribute dbC1a "alice" "circle" = .ok 8000 db' ∧
      countContribs db' 1 "alice" 1 = countContribs dbC1a 1 "alice" 1 + 1 :=
  contribute_no_duplicate_check dbC1a "alice" "circle" ⟨"alice", "pw", 9000⟩
    ⟨1, "circle", 1000, "weekly", 3, "alice", "active"⟩ rfl rfl (by decide) (by decide)

/-- C2 counterexample: when the contribution INSERT throws right after the
debit UPDATE, the handler surfaces the error with the debit kept — alice's
stored balance is 9000 yet no Contribution and no TransactionRecord
exists. -/
theorem contribute_not_atomic_counterexample :
    contributeWithFaults dbC1 "alice" "circle" true false = .storageError dbC2f ∧
    findUser dbC2f "alice" = some ⟨"alice", "pw", 9000⟩ ∧
    dbC2f.contributions = [] ∧ dbC2f.transactions = [] :=
  ⟨rfl, rfl, rfl, rfl⟩

/-- C2 amended: contribute is not atomic — if the contribution INSERT
fails after the debit UPDATE, the error is surfaced without reversing the
debit: the stored balance is reduced by `amountPerPerson` while the
contributions and transactions tables are unchanged. -/
theorem contribute_no_rollback (db : DB) (u gn : String) (user : User) (g : Group)
    (hu : findUser db u = some user) (hg : findGroup db gn = some g)
    (hm : (findMember db g.id u).isSome)
    (hb : ¬ user.balance < g.amountPerPerson) :
    ∃ db', contributeWithFaults db u gn true false = .storageError db' ∧
      findUser db' u = some { user with balance := user.balance - g.amountPerPerson } ∧
      db'.contributions = db.contributions ∧ db'.transactions = db.transactions := by
  obtain ⟨m, hm'⟩ := Option.isSome_iff_exists.mp hm
  unfold contributeWithFaults
  simp only [hu, hg, hm', if_neg hb]
  refine ⟨_, rfl, ?_, rfl, rfl⟩
  unfold findUser at hu ⊢
  simp only [findUser_updateBalance, hu]
  rfl

/-- Witness for the C2 amended theorem at `dbC1`. -/
theorem contribute_no_rollback_witness :
    ∃ db', contributeWithFaults dbC1 "alice" "circle" true false = .storageError db' ∧
      findUser db' "alice" = some ⟨"alice", "pw", 9000⟩ ∧
      db'.contributions = dbC1.contributions ∧ db'.transactions = dbC1.transactions :=
  contribute_no_rollback dbC1 "alice" "circle" ⟨"alice", "pw", 10000⟩
    ⟨1, "circle", 1000, "weekly", 3, "alice", "active"⟩ rfl rfl (by decide) (by decide)

/-- C5 counterexample: the group in `dbClosed` has status "closed", yet
join succeeds and adds bob — no GroupClosed rejection exists anywhere in
the handlers. -/
theorem closed_group_counterexample :
    (findGroup dbClosed "circle").map (fun g => g.status) = some "closed" ∧
    joinGroup dbClosed "bob" "circle" =
      .ok 2 { dbClosed with members := dbClosed.members ++ [⟨1, "bob", 2, false⟩] } :=
  ⟨rfl, rfl⟩

/-- C5 amended: the group's status column is never consulted — join and
contribute treat a closed group exactly like an active one: whenever their
other checks pass they succeed and write state, and no GroupClosed error
(nor any collect operation) exists. -/
theorem closed_group_not_rejected (db : DB) (gn : String) (g : Group)
    (hg : findGroup db gn = some g) (hclosed : g.status = "closed") :
    (∀ u, findMember db g.id u = none →
      ((groupMembers db g.id).length : Int) < g.totalMembers →
      joinGroup db u gn = .ok ((groupMembers db g.id).length + 1)
        { db with members :=
            db.members ++ [⟨g.id, u, (groupMembers db g.id).length + 1, false⟩] }) ∧
    (∀ u user, findUser db u = some user → (findMember db g.id u).isSome →
      ¬ user.balance < g.amountPerPerson →
      ∃ db', contribute db u gn = .ok (user.balance - g.amountPerPerson) db') := by
  constructor
  · intro u hm hlt
    unfold joinGroup
    simp only [hg, hm, Option.isSome_none, Bool.false_eq_true, if_false,
      if_neg (not_le.mpr hlt)]
  · intro u user hu hm hb
    obtain ⟨m, hm'⟩ := Option.isSome_iff_exists.mp hm
    unfold contribute contributeWithFaults
    simp only [hu, hg, hm', if_neg hb]
    exact ⟨_, rfl⟩

/-- Witness for the C5 amended theorem: carol joins the closed group. -/
theorem closed_group_not_rejected_witness :
    joinGroup dbClosed "carol" "circle" =
      .ok 2 { dbClosed with members := dbClosed.members ++ [⟨1, "carol", 2, false⟩] } :=
  (closed_group_not_rejected dbClosed "circle"
    ⟨1, "circle", 1000, "weekly", 3, "alice", "closed"⟩ rfl rfl).1 "carol" rfl (by decide)

/-- C3 counterexample: totalMembers = 0 lies outside [3,12], yet
createGroup rejects it with the missing-fields error (JS falsiness of 0),
not with InvalidRange. -/
theorem createGroup_zero_members_counterexample :
    ¬ ((3 : Int) ≤ 0 ∧ (0 : Int) ≤ 12) ∧
    createGroup dbEmpty "alice" "circle" 1000 "weekly" 0 ≠ .invalidRange ∧
    createGroup dbEmpty "alice" "circle" 1000 "weekly" 0 = .missingFields := by
  refine ⟨by decide, ?_, rfl⟩
  intro h
  exact absurd (rfl.symm.trans h) (by decide)

/-- C3 amended: with all fields present (nonzero, nonempty), createGroup
fails with InvalidRange whenever totalMembers is outside [3,12] (a zero
totalMembers is caught by the missing-fields falsiness check instead);
in range it fails with DuplicateName when the name is taken, and with a
fresh name it creates the Group plus a founder Membership at position 1
and returns the new groupId. -/
theorem createGroup_spec (db : DB) (u gn : String) (app : Int) (freq : String) (tm : Int)
    (hu : u ≠ "") (hgn : gn ≠ "") (happ : app ≠ 0) (hfreq : freq ≠ "") (htm : tm ≠ 0) :
    ((tm < 3 ∨ tm > 12) → createGroup db u gn app freq tm = .invalidRange) ∧
    (3 ≤ tm → tm ≤ 12 →
      ((∃ g ∈ db.groups, g.groupName = gn) →
        createGroup db u gn app freq tm = .duplicateName) ∧
      ((∀ g ∈ db.groups, g.groupName ≠ gn) →
        createGroup db u gn app freq tm = .ok db.nextGroupId
          { db with
            groups := db.groups ++ [⟨db.nextGroupId, gn, app, freq, tm, u, "active"⟩],
            members := db.members ++ [⟨db.nextGroupId, u, 1, false⟩],
            nextGroupId := db.nextGroupId + 1 })) := by
  have hmf : ¬ ((u == "" || gn == "" || app == 0 || freq == "" || tm == 0) = true) := by
    simp [hu, hgn, happ, hfreq, htm]
  constructor
  · intro hrange
    unfold createGroup
    rw [if_neg hmf, if_pos]
    rcases hrange with h | h <;> simp [h]
  · intro h3 h12
    have hnr : ¬ ((decide (tm < 3) || decide (tm > 12)) = true) := by
      simp only [Bool.or_eq_true, decide_eq_true_eq]
      omega
    constructor
    · rintro ⟨g, hgmem, hgname⟩
      unfold createGroup
      rw [if_neg hmf, if_neg hnr, if_pos]
      rw [List.any_eq_true]
      exact ⟨g, hgmem, by simp [hgname]⟩
    · intro hfreshname
      unfold createGroup
      rw [if_neg hmf, if_neg hnr, if_neg]
      rw [List.any_eq_true]
      rintro ⟨g, hgmem, hgname⟩
      exact hfreshname g hgmem (by simpa using hgname)

/-- Witness for the C3 amended theorem: totalMembers = 2 is rejected with
InvalidRange. -/
theorem createGroup_spec_witness :
    createGroup dbEmpty "alice" "circle" 1000 "weekly" 2 = .invalidRange :=
  (createGroup_spec dbEmpty "alice" "circle" 1000 "weekly" 2 (by decide) (by decide)
    (by decide) (by decide) (by decide)).1 (Or.inl (by decide))

/-- A single successful balance-changing request keeps every stored
balance non-negative. -/
theorem runOp_preserves_nonneg (db : DB) (op : Op) (db' : DB)
    (h : runOp db op = some db') (hn : allBalancesNonneg db) : allBalancesNonneg db' := by
  cases op with
  | airtimeOp u a =>
    cases hcall : buyAirtime db u a with
    | ok b d =>
      simp only [runOp, hcall] at h
      injection h with h
      subst h
      unfold buyAirtime at hcall
      split at hcall
      · exact absurd hcall (by simp)
      next user huser =>
        split at hcall
        · exact absurd hcall (by simp)
        next ha =>
          split at hcall
          · exact absurd hcall (by simp)
          next hbal =>
            injection hcall with h1 h2
            subst h2
            intro x hx
            exact updateBalance_nonneg hn (by omega) x hx
    | userNotFound => simp [runOp, hcall] at h
    | invalidAmount => simp [runOp, hcall] at h
    | insufficientFunds => simp [runOp, hcall] at h
  | transferOp u r a =>
    cases hcall : transfer db u r a with
    | ok b d =>
      simp only [runOp, hcall] at h
      injection h with h
      subst h
      unfold transfer at hcall
      split at hcall
      · exact absurd hcall (by simp)
      next user huser =>
        split at hcall
        · exact absurd hcall (by simp)
        next hrecEmpty =>
          split at hcall
          · exact absurd hcall (by simp)
          next ha =>
            split at hcall
            · exact absurd hcall (by simp)
            next hbal =>
              split at hcall
              · exact absurd hcall (by simp)
              next recUser hrec =>
                injection hcall with h1 h2
                subst h2
                intro x hx
                have hrb := hn recUser (List.mem_of_find?_eq_some hrec)
                refine updateBalance_nonneg (updateBalance_nonneg hn ?_) ?_ x hx
                · omega
                · omega
    | userNotFound => simp [runOp, hcall] at h
    | missingRecipient => simp [runOp, hcall] at h
    | invalidAmount => simp [runOp, hcall] at h
    | insufficientFunds => simp [runOp, hcall] at h
    | recipientNotFound => simp [runOp, hcall] at h
  | payBillOp u a c =>
    cases hcall : payBill db u a c with
    | ok b d =>
      simp only [runOp, hcall] at h
      injection h with h
      subst h
      unfold payBill at hcall
      split at hcall
      · exact absurd hcall (by simp)
      next user huser =>
        split at hcall
        · exact absurd hcall (by simp)
        next hbal =>
          injection hcall with h1 h2
          subst h2
          intro x hx
          exact updateBalance_nonneg hn (by omega) x hx
    | userNotFound => simp [runOp, hcall] at h
    | insufficientFunds => simp [runOp, hcall] at h
  | contributeOp u gn =>
    cases hcall : contribute db u gn with
    | ok b d =>
      simp only [runOp, hcall] at h
      injection h with h
      subst h
      unfold contribute contributeWithFaults at hcall
      split at hcall
      next user g huser hg =>
        split at hcall
        · exact absurd hcall (by simp)
        next m hm =>
          split at hcall
          · exact absurd hcall (by simp)
          next hbal =>
            injection hcall with h1 h2
            subst h2
            intro x hx
            exact updateBalance_nonneg hn (by omega) x hx
      next => exact absurd hcall (by simp)
    | notFound => simp [runOp, hcall] at h
    | notMember => simp [runOp, hcall] at h
    | insufficientFunds => simp [runOp, hcall] at h
    | storageError d => simp [runOp, hcall] at h

/-- C7: starting from non-negative balances, any sequence of the four
balance-changing requests — airtime, transfer, bill payment, esusu
contribution — leaves every stored balance non-negative; each handler's
own balance check suffices and rejected requests write nothing. -/
theorem balances_stay_nonneg (db : DB) (ops : List Op)
    (hn : allBalancesNonneg db) : allBalancesNonneg (runOps db ops) := by
  induction ops generalizing db with
  | nil => exact hn
  | cons op rest ih =>
    simp only [runOps, List.foldl_cons]
    cases h : runOp db op with
    | none => exact ih db hn
    | some d => exact ih d (runOp_preserves_nonneg db op d h hn)

/-- Witness for C7: a contribution then an airtime purchase on `dbC1`. -/
theorem balances_stay_nonneg_witness :
    allBalancesNonneg (runOps dbC1 [Op.contributeOp "alice" "circle", Op.airtimeOp "bob" 700]) :=
  balances_stay_nonneg dbC1 [Op.contributeOp "alice" "circle", Op.airtimeOp "bob" 700]
    (by unfold allBalancesNonneg; decide)

/-- C4 (spec-modelled): with group and member found, markCollected fails
with AlreadyCollected when the member's flag is already set; when it is
not, it fails with NotEligible exactly unless the cycle's pending set is
empty and the account is the lowest-position uncollected member; on
success the member's flag is flipped to true and a TransactionRecord
crediting `amountPerPerson * totalMembers` is appended. -/
theorem markCollected_spec (db : DB) (u gn : String) (cyc : Nat) (g : Group) (m : Member)
    (hg : findGroup db gn = some g) (hm : findMember db g.id u = some m) :
    (m.hasCollected = true → markCollected db u gn cyc = .alreadyCollected) ∧
    (m.hasCollected = false →
      (markCollected db u gn cyc = .notEligible ↔
        ¬ (cycleStatusPending db g.id cyc = [] ∧
           (lowestUncollected db g.id).map (fun b => b.username) = some u))) ∧
    (∀ db', markCollected db u gn cyc = .ok db' →
      (∀ mm ∈ db'.members, mm.groupId = g.id → mm.username = u → mm.hasCollected = true) ∧
      db'.transactions = db.transactions ++
        [⟨u, "Esusu Collection", g.amountPerPerson * g.totalMembers, gn⟩]) := by
  unfold markCollected
  simp only [hg, hm]
  by_cases hc : m.hasCollected = true
  · simp only [if_pos hc]
    refine ⟨fun _ => by trivial, fun hf => absurd hf (by simp [hc]), ?_⟩
    intro db' h
    exact absurd h (by simp)
  · simp only [if_neg hc]
    by_cases he : cycleStatusPending db g.id cyc = [] ∧
        (lowestUncollected db g.id).map (fun b => b.username) = some u
    · simp only [if_pos he]
      refine ⟨fun h => absurd h hc, fun _ => ?_, ?_⟩
      · exact ⟨fun h => absurd h (by simp), fun hne => absurd he hne⟩
      · intro db' h
        injection h with h
        subst h
        refine ⟨?_, rfl⟩
        intro mm hmm hgid hun
        simp only [List.mem_map] at hmm
        obtain ⟨w, hw, rfl⟩ := hmm
        by_cases hmatch : (w.groupId == g.id && w.username == u) = true
        · simp [hmatch]
        · rw [if_neg hmatch] at hgid hun ⊢
          exact absurd (by simp [hgid, hun]) hmatch
    · simp only [if_neg he]
      refine ⟨fun h => absurd h hc, fun _ => ⟨fun _ => he, fun _ => by trivial⟩, ?_⟩
      intro db' h
      exact absurd h (by simp)

/-- Witness for C4 on `dbReady`, where cycle 1 is fully paid and alice is
the lowest-position uncollected member. -/
theorem markCollected_spec_witness :
    (markCollected dbReady "alice" "circle" 1 = .notEligible ↔
      ¬ (cycleStatusPending dbReady 1 1 = [] ∧
         (lowestUncollected dbReady 1).map (fun b => b.username) = some "alice")) :=
  (markCollected_spec dbReady "alice" "circle" 1
    ⟨1, "circle", 1000, "weekly", 3, "alice", "active"⟩ ⟨1, "alice", 1, false⟩
    rfl rfl).2.1 rfl

/-- A successful createGroup on a database with fresh ids yields a group
whose only member is the founder at position 1, establishing the
membership invariant, and every stored group with the new id has the
requested capacity. -/
theorem createGroup_establishes (db : DB) (u gn : String) (app : Int) (freq : String)
    (tm : Int) (gid : Nat) (db1 : DB) (hfresh : freshIds db)
    (h : createGroup db u gn app freq tm = .ok gid db1) :
    groupMembers db1 gid = [⟨gid, u, 1, false⟩] ∧
    memberInvariant db1 gid u tm ∧
    (∀ g ∈ db1.groups, g.id = gid → g.totalMembers = tm) := by
  unfold createGroup at h
  split at h
  · exact absurd h (by simp)
  split at h
  · exact absurd h (by simp)
  next hrange =>
    split at h
    · exact absurd h (by simp)
    injection h with h1 h2
    subst h1
    subst h2
    have h3tm : 3 ≤ tm := by
      simp only [Bool.or_eq_true, decide_eq_true_eq, not_or] at hrange
      omega
    have hnil : List.filter (fun m => m.groupId == db.nextGroupId) db.members = [] := by
      rw [List.filter_eq_nil_iff]
      intro m hmmem
      have := hfresh.2 m hmmem
      simp
      omega
    have hgm : groupMembers
        { db with
          groups := db.groups ++ [⟨db.nextGroupId, gn, app, freq, tm, u, "active"⟩],
          members := db.members ++ [⟨db.nextGroupId, u, 1, false⟩],
          nextGroupId := db.nextGroupId + 1 } db.nextGroupId =
        [⟨db.nextGroupId, u, 1, false⟩] := by
      unfold groupMembers
      rw [List.filter_append, hnil]
      simp
    refine ⟨hgm, ⟨?_, ?_, ?_⟩, ?_⟩
    · unfold positionsContiguous
      rw [hgm]
      rfl
    · rw [hgm]
      rfl
    · rw [hgm]
      simp only [List.length_singleton]
      omega
    · intro g hgmem hgid
      simp only [List.mem_append, List.mem_singleton] at hgmem
      rcases hgmem with hgmem | hgmem
      · exact absurd hgid (by have := hfresh.1 g hgmem; omega)
      · subst hgmem
        rfl

/-- One join request (successful or not) preserves the membership
invariant of a group, provided every stored group that shares its id has
capacity `tm`; the group table itself is never written by join. -/
theorem applyJoin_preserves (db : DB) (gid : Nat) (founder : String) (tm : Int)
    (hres : ∀ g ∈ db.groups, g.id = gid → g.totalMembers = tm)
    (hinv : memberInvariant db gid founder tm) (j : String × String) :
    (applyJoin db j).groups = db.groups ∧
    memberInvariant (applyJoin db j) gid founder tm := by
  unfold applyJoin
  cases hj : joinGroup db j.1 j.2 with
  | notFound => exact ⟨rfl, hinv⟩
  | alreadyMember => exact ⟨rfl, hinv⟩
  | groupFull => exact ⟨rfl, hinv⟩
  | ok posn d =>
    unfold joinGroup at hj
    split at hj
    · exact absurd hj (by simp)
    next g hg =>
      split at hj
      · exact absurd hj (by simp)
      next hmem =>
        split at hj
        · exact absurd hj (by simp)
        next hfull =>
          injection hj with h1 h2
          subst h2
          refine ⟨rfl, ?_⟩
          by_cases hid : g.id = gid
          · subst hid
            obtain ⟨hpos, hhead, hlen⟩ := hinv
            have hgm : groupMembers
                { db with members := db.members ++
                    [⟨g.id, j.1, (groupMembers db g.id).length + 1, false⟩] } g.id =
                groupMembers db g.id ++
                  [⟨g.id, j.1, (groupMembers db g.id).length + 1, false⟩] := by
              unfold groupMembers
              rw [List.filter_append]
              simp
            have htm : g.totalMembers = tm := by
              refine hres g ?_ rfl
              exact List.mem_of_find?_eq_some hg
            refine ⟨?_, ?_, ?_⟩
            · unfold positionsContiguous at hpos ⊢
              rw [hgm, List.map_append, hpos]
              simp only [List.map_cons, List.map_nil, List.length_append,
                List.length_singleton]
              rw [List.range'_1_concat, Nat.add_comm 1 (groupMembers db g.id).length]
            · rw [hgm, List.head?_append]
              rw [hhead]
              rfl
            · rw [hgm, List.length_append]
              rw [htm] at hfull
              simp only [List.length_singleton]
              push_cast
              omega
          · have hgm : groupMembers
                { db with members := db.members ++
                    [⟨g.id, j.1, (groupMembers db g.id).length + 1, false⟩] } gid =
                groupMembers db gid := by
              unfold groupMembers
              rw [List.filter_append]
              simp [hid]
            unfold memberInvariant positionsContiguous at hinv ⊢
            rw [hgm]
            exact hinv

/-- Any sequence of join requests preserves the membership invariant. -/
theorem runJoins_invariant (joins : List (String × String)) (db : DB) (gid : Nat)
    (founder : String) (tm : Int)
    (hres : ∀ g ∈ db.groups, g.id = gid → g.totalMembers = tm)
    (hinv : memberInvariant db gid founder tm) :
    memberInvariant (runJoins db joins) gid founder tm := by
  induction joins generalizing db with
  | nil => exact hinv
  | cons j rest ih =>
    obtain ⟨hgs, hinv'⟩ := applyJoin_preserves db gid founder tm hres hinv j
    exact ih (applyJoin db j) (hgs ▸ hres) hinv'

/-- C6: joinGroup fails with GroupFull exactly when the member count has
reached totalMembers and otherwise inserts the caller at position
memberCount + 1; consequently, starting from a freshly created group, any
sequence of joins keeps the member positions exactly the contiguous
integers 1..memberCount in join order, with the creator at position 1 and
the member count never exceeding totalMembers. -/
theorem join_positions_contiguous (db0 : DB) (u gn : String) (app : Int) (freq : String)
    (tm : Int) (gid : Nat) (db1 : DB) (hfresh : freshIds db0)
    (hcreate : createGroup db0 u gn app freq tm = .ok gid db1) :
    (∀ joins, memberInvariant (runJoins db1 joins) gid u tm) ∧
    (∀ db u' gn' g, findGroup db gn' = some g → findMember db g.id u' = none →
      ((((groupMembers db g.id).length : Int) ≥ g.totalMembers →
        joinGroup db u' gn' = .groupFull) ∧
       (((groupMembers db g.id).length : Int) < g.totalMembers →
        joinGroup db u' gn' = .ok ((groupMembers db g.id).length + 1)
          { db with members := db.members ++
              [⟨g.id, u', (groupMembers db g.id).length + 1, false⟩] }))) := by
  constructor
  · intro joins
    obtain ⟨hgm, hinv, hres⟩ :=
      createGroup_establishes db0 u gn app freq tm gid db1 hfresh hcreate
    exact runJoins_invariant joins db1 gid u tm hres hinv
  · intro db u' gn' g hg hm
    constructor
    · intro hge
      unfold joinGroup
      simp only [hg, hm, Option.isSome_none, Bool.false_eq_true, if_false, if_pos hge]
    · intro hlt
      unfold joinGroup
      simp only [hg, hm, Option.isSome_none, Bool.false_eq_true, if_false,
        if_neg (not_le.mpr hlt)]

/-- Witness for C6: bob and carol join the freshly created group `dbG`. -/
theorem join_positions_contiguous_witness :
    memberInvariant (runJoins dbG [("bob", "circle"), ("carol", "circle")]) 1 "alice" 3 :=
  (join_positions_contiguous dbEmpty "alice" "circle" 1000 "weekly" 3 1 dbG
    (by refine ⟨?_, ?_⟩ <;> intro x hx <;> exact absurd hx (List.not_mem_nil x))
    rfl).1 [("bob", "circle"), ("carol", "circle")]

end Sara
